import Mathlib

/-!
# Verification of excel_wrapper.py

A shallow embedding of `src/excel_wrapper.py` together with theorems about
its natural-sort key, column-letter conversion, table store operations and
export pipeline.

Modelling conventions:
* Python scalar/sequence values are modelled by the inductive `PyVal`
  (`None`, `str`, `int`, and one constructor for `list`/`tuple` values;
  `set` values only occur at the top level of `add_data` arguments, where
  they are rejected before their elements are ever observed, so they are
  represented by the `AddArg.pyset` argument form).
* Python exceptions are modelled by `PyErr`; mutating methods that can
  raise return the post-call state *and* an optional error, because a
  Python exception does not roll back mutations already performed.
* Python's `list.sort(key=...)` (Timsort) is a stable sort with respect to
  the key order; it is modelled by `List.insertionSort`, which is also
  stable, and stable sorts of a total preorder agree pointwise.
* Machine-independent parts (`openpyxl` serialisation, column autosizing
  widths, which are floating point and purely presentational) are out of
  scope, as the spec delegates them to the external engine.
-/

/-- A Python value as it occurs in rows of the table store: `None`, a
string, an int, or a `list`/`tuple` of values. -/
inductive PyVal where
  | pynone
  | pystr (s : String)
  | pyint (n : Int)
  | pyseq (xs : List PyVal)

mutual

/-- Python `repr` of a value. (String `repr` is modelled as wrapping in
single quotes; escaping of quote characters inside the string is not
modelled — no claim evaluates `repr` on such strings.) -/
def pyRepr : PyVal → String
  | .pynone => "None"
  | .pystr s => "\x27" ++ s ++ "\x27"
  | .pyint n => toString n
  | .pyseq xs => "[" ++ pyReprJoin xs ++ "]"

/-- Comma-separated `repr`s of the elements of a Python list. -/
def pyReprJoin : List PyVal → String
  | [] => ""
  | [c] => pyRepr c
  | c :: rest => pyRepr c ++ ", " ++ pyReprJoin rest

end

/-- Python `str` of a value (used by the sort key: `str(x[key])`). -/
def pyStr : PyVal → String
  | .pystr s => s
  | c => pyRepr c

/-! ## Natural sort (`natural_sort_multiple_columns`, lines 41-55)

`re.split('([0-9]+)', s)` splits `s` into an alternating run list
`[text, digits, text, digits, ..., text]`: the captured maximal digit runs
are kept, and the (possibly empty) non-digit spans between and around them
are the remaining entries.  `splitRuns` computes that run list
character by character. -/

/-- The run list of `re.split('([0-9]+)', s)` on the character list of
`s`: alternating non-digit text spans (possibly empty at the boundaries)
and maximal digit runs, starting and ending with a text span. -/
def splitRuns : List Char → List String
  | [] => [""]
  | c :: cs =>
    if c.isDigit then
      match splitRuns cs with
      | "" :: d :: rest => "" :: ((⟨[c]⟩ : String) ++ d) :: rest
      | r => "" :: (⟨[c]⟩ : String) :: r
    else
      match splitRuns cs with
      | t :: rest => ((⟨[c]⟩ : String) ++ t) :: rest
      | [] => [(⟨[c]⟩ : String)]

/-- Python `text.isdigit()` (restricted to ASCII digits, which is all that
can occur in the output of a split on `[0-9]+`). -/
def pyIsDigit (t : String) : Bool :=
  !t.data.isEmpty && t.data.all Char.isDigit

/-- Python `int(text)` for a string of ASCII decimal digits. -/
def pyToNat (t : String) : Nat :=
  t.data.foldl (fun a c => 10 * a + (c.toNat - 48)) 0

/-- Python `text.lower()` (ASCII case folding). -/
def pyLower (t : String) : String :=
  ⟨t.data.map Char.toLower⟩

/-- One segment of a natural-sort key: either the integer value of a digit
run or the lowercased text of a non-digit span. -/
inductive SortSeg where
  | num (n : Nat)
  | txt (s : String)
  deriving DecidableEq

/-- `natural_sort_key(s)` (line 49): split on digit runs, map digit runs
to their integer value and other spans to their lowercase text. -/
def natural_sort_key (s : String) : List SortSeg :=
  (splitRuns s.data).map
    (fun text => if pyIsDigit text then .num (pyToNat text) else .txt (pyLower text))

/-- Lexicographic comparison of lists given an element comparison;
matches Python's list comparison (a strict prefix is smaller). -/
def cmpList (cmp : α → α → Ordering) : List α → List α → Ordering
  | [], [] => .eq
  | [], _ :: _ => .lt
  | _ :: _, [] => .gt
  | a :: xs, b :: ys =>
    match cmp a b with
    | .eq => cmpList cmp xs ys
    | o => o

/-- Python character comparison: by code point. -/
def charOrd (a b : Char) : Ordering := compare a.toNat b.toNat

/-- Python string comparison: lexicographic by code point. -/
def strCmp (s t : String) : Ordering := cmpList charOrd s.data t.data

/-- Comparison of key segments.  Python raises `TypeError` when comparing
an `int` with a `str`; the output of `natural_sort_key` always has text
spans at even and digit runs at odd positions, so two keys are only ever
compared segment-wise at equal types and the mixed cases below are never
reached while sorting.  They are totalised arbitrarily. -/
def segCmp : SortSeg → SortSeg → Ordering
  | .num m, .num n => compare m n
  | .txt s, .txt t => strCmp s t
  | .num _, .txt _ => .lt
  | .txt _, .num _ => .gt

/-- Comparison of one column's natural-sort key. -/
def keyCmp : List SortSeg → List SortSeg → Ordering := cmpList segCmp

/-- Comparison of composite (multi-column) keys. -/
def rowKeyCmp : List (List SortSeg) → List (List SortSeg) → Ordering :=
  cmpList keyCmp

/-- The composite sort key of a row (line 55):
`[natural_sort_key(str(x[key])) for key in sort_keys]`.  Python raises
`IndexError` for an out-of-range `key`; indexing is totalised with a
default (theorems about sorting assume in-range sort keys). -/
def rowSortKey (sort_keys : List Nat) (row : List PyVal) : List (List SortSeg) :=
  sort_keys.map (fun key => natural_sort_key (pyStr (row.getD key .pynone)))

/-- The "less or equal" order on rows induced by the composite key. -/
def rowLe (sort_keys : List Nat) (x y : List PyVal) : Prop :=
  rowKeyCmp (rowSortKey sort_keys x) (rowSortKey sort_keys y) ≠ .gt

instance (sort_keys : List Nat) : DecidableRel (rowLe sort_keys) := fun x y =>
  show Decidable
      (rowKeyCmp (rowSortKey sort_keys x) (rowSortKey sort_keys y) ≠ .gt) from
    inferInstance

/-- `natural_sort_multiple_columns(data, sort_keys)` (lines 41-55).
`data.sort(key=...)` is Python's stable sort by the composite key;
it is modelled by the (stable) insertion sort, returning the new row
order instead of mutating in place. -/
def natural_sort_multiple_columns (data : List (List PyVal)) (sort_keys : List Nat) :
    List (List PyVal) :=
  data.insertionSort (rowLe sort_keys)

/-! ## Column letters (`_col_to_excel`, lines 72-80)

The source is a `while div:` loop; it is embedded with an explicit fuel
parameter (the loop iterates at most `col` times since `(d - 1) / 26 < d`
for `d > 0`, so fuel `col` suffices — proved below). -/

/-- The loop of `_col_to_excel`: while `div ≠ 0`, set
`(div, mod) = divmod(div - 1, 26)` and prepend `chr(mod + 65)`. -/
def colLoop (fuel div : Nat) : List Char :=
  match fuel, div with
  | _, 0 => []
  | 0, _ + 1 => []
  | f + 1, d + 1 => colLoop f (d / 26) ++ [Char.ofNat (d % 26 + 65)]

/-- `_col_to_excel(col)`: the bijective base-26 column letters. -/
def col_to_excel (col : Nat) : String :=
  (colLoop col col).asString

/-- Value of a letter string read as bijective base 26 (`A = 1`, ...,
`Z = 26`); the inverse used to state correctness of `col_to_excel`. -/
def lettersVal (cs : List Char) : Nat :=
  cs.foldl (fun acc c => 26 * acc + (c.toNat - 64)) 0

/-! ## The table store (`ExcelWrapper` state) -/

/-- A Python exception, by class and message.  For exceptions raised
explicitly by the source the message is the source's; for interpreter
errors (`IndexError` on `[0]`, `TypeError` on subscripting a set or
taking `len` of a non-sized value) a representative message is used
(CPython's exact wording, which quotes type names, is immaterial). -/
inductive PyErr where
  | typeError (msg : String)
  | indexError (msg : String)
  | valueError (msg : String)
  | systemExit (msg : String)
  | runtimeError (msg : String)
  deriving DecidableEq

/-- One entry of `output_data`: `{'headers': [...], 'data': [...]}` plus
the optional `'sort_keys'` key added by `sort_data`. -/
structure SheetData where
  headers : List String
  data : List (List PyVal)
  sort_keys : Option (List Nat) := none

/-- One registered conditional-formatting `Rule` (expression type,
`stopIfTrue=False`): its formula and its background color with leading
`#` stripped. -/
structure TableRule where
  formula : String
  bgColor : String
  deriving DecidableEq

/-- One `format_cells` rule as stored in `cell_styles`. -/
structure CellRule where
  rule : String
  bg_color : String
  deriving DecidableEq

/-- The `ExcelWrapper` state: the insertion-ordered dicts `output_data`,
`table_styles`, `cell_styles` and `frozen_columns`, each modelled as an
association list in insertion order.  (In the source the latter three are
class-level attributes shared across instances; instance aliasing is not
claim-relevant, so the state of the single wrapper in use is modelled.) -/
structure ExcelWrapper where
  output_data : List (String × SheetData) := []
  table_styles : List (String × List TableRule) := []
  cell_styles : List (String × List (String × List CellRule)) := []
  frozen_columns : List (String × String) := []

/-- Dict read: first (only) binding of a key in an association list. -/
def getSheet (w : ExcelWrapper) (sheet_name : String) : Option SheetData :=
  w.output_data.lookup sheet_name

/-- `d.setdefault(k, v)` on an insertion-ordered dict. -/
def setdefaultA (l : List (String × β)) (k : String) (v : β) : List (String × β) :=
  if (l.lookup k).isSome then l else l ++ [(k, v)]

/-- Update the value bound to `k` (all bindings of `k`; keys are unique
by construction, mirroring a Python dict). -/
def modifyA (l : List (String × β)) (k : String) (f : β → β) : List (String × β) :=
  l.map (fun p => if p.1 = k then (p.1, f p.2) else p)

/-- `d[k] = v` on an insertion-ordered dict. -/
def dictSet (l : List (String × β)) (k : String) (v : β) : List (String × β) :=
  if (l.lookup k).isSome then modifyA l k (fun _ => v) else l ++ [(k, v)]

/-- `_create_sheet` (lines 104-106): add `{'headers': [], 'data': []}`
under `sheet_name` if absent. -/
def _create_sheet (w : ExcelWrapper) (sheet_name : String) : ExcelWrapper :=
  if (getSheet w sheet_name).isSome then w
  else { w with output_data := w.output_data ++ [(sheet_name, ⟨[], [], none⟩)] }

/-- Apply `f` to the sheet stored under `sheet_name`. -/
def modifySheet (w : ExcelWrapper) (sheet_name : String) (f : SheetData → SheetData) :
    ExcelWrapper :=
  { w with output_data := modifyA w.output_data sheet_name f }

/-- `add_headers` (lines 142-148): create the sheet, raise
`ValueError('Duplicate Header Found.')` when the list has repeats
(leaving the headers untouched), otherwise replace the header list.
(The argument is modelled as the list `list(data)`; a `set` argument's
iteration order is interpreter-dependent and out of scope.) -/
def add_headers (w : ExcelWrapper) (sheet_name : String) (data : List String) :
    ExcelWrapper × Option PyErr :=
  let w := _create_sheet w sheet_name
  if data.dedup.length ≠ data.length then
    (w, some (.valueError "Duplicate Header Found."))
  else
    (modifySheet w sheet_name (fun sd => { sd with headers := data }), none)

/-- Python `len` on a value: defined for sequences and strings, a
`TypeError` otherwise. -/
def pyLen : PyVal → Except PyErr Nat
  | .pyseq xs => .ok xs.length
  | .pystr s => .ok s.length
  | .pyint _ => .error (.typeError "object of type int has no len")
  | .pynone => .error (.typeError "object of type NoneType has no len")

/-- Python iteration over a batch row: a sequence yields its elements, a
string yields its characters as one-character strings.  (Only reached
after `pyLen` succeeded, so the remaining cases are unreachable in
`add_data`.) -/
def pyIter : PyVal → List PyVal
  | .pyseq xs => xs
  | .pystr s => s.data.map (fun ch => .pystr (⟨[ch]⟩ : String))
  | c => [c]

/-- `item if item is not None else ""` (lines 162, 166). -/
def normVal : PyVal → PyVal
  | .pynone => .pystr ""
  | c => c

/-- `isinstance(x, (list, tuple, set))` for a stored value (nested sets
are not distinguished from lists here; their iteration order never
matters to a claim). -/
def isSeqInst : PyVal → Bool
  | .pyseq _ => true
  | _ => false

/-- An argument to `add_data`: a list, tuple or set of values, or any
value of another type (rejected by the `isinstance` check). -/
inductive AddArg where
  | pylist (items : List PyVal)
  | pytuple (items : List PyVal)
  | pyset (items : List PyVal)
  | otherType

/-- The batch loop of `add_data` (lines 158-163): append each normalized
batch row until a row of the wrong length raises
`ValueError('Invalid Data Found, Column Count Mismatch')` (or `len`
raises `TypeError`); rows appended before the failure stay appended. -/
def addBatch (header_count : Nat) (rows : List (List PyVal)) :
    List PyVal → List (List PyVal) × Option PyErr
  | [] => (rows, none)
  | item :: rest =>
    match pyLen item with
    | .error e => (rows, some e)
    | .ok n =>
      if n ≠ header_count then
        (rows, some (.valueError "Invalid Data Found, Column Count Mismatch"))
      else
        addBatch header_count (rows ++ [(pyIter item).map normVal]) rest

/-- `add_data` (lines 150-169): create the sheet; reject non-sequence
arguments with `TypeError`; index `data[0]` without guarding (an empty
list/tuple raises `IndexError`, a set raises `TypeError`); if the first
element is a sequence treat the input as a batch, otherwise as a single
row that must match the header count. -/
def add_data (w : ExcelWrapper) (sheet_name : String) (arg : AddArg) :
    ExcelWrapper × Option PyErr :=
  let w := _create_sheet w sheet_name
  match arg with
  | .otherType => (w, some (.typeError "Invalid Data Type, Requires List, Tuple, or Set"))
  | .pyset _ => (w, some (.typeError "set object is not subscriptable"))
  | .pylist items | .pytuple items =>
    match items with
    | [] => (w, some (.indexError "list index out of range"))
    | first :: _ =>
      let sd := (getSheet w sheet_name).getD ⟨[], [], none⟩
      if isSeqInst first then
        let (d, err) := addBatch sd.headers.length sd.data items
        (modifySheet w sheet_name (fun s => { s with data := d }), err)
      else if items.length = sd.headers.length then
        (modifySheet w sheet_name
          (fun s => { s with data := s.data ++ [items.map normVal] }), none)
      else
        (w, some (.valueError "Invalid Data Found, Column Count Mismatch"))

/-- Resolve sort header names to column indices (lines 179-184), raising
`SystemExit` at the first unknown name. -/
def resolveSortKeys (sheet_headers : List String) : List String → Except PyErr (List Nat)
  | [] => .ok []
  | h :: rest =>
    match sheet_headers.findIdx? (· == h) with
    | none => .error (.systemExit ("Invalid Sort Header: " ++ h))
    | some i => (resolveSortKeys sheet_headers rest).map (i :: ·)

/-- `sort_data` (lines 171-186): record the resolved sort-key indices
(a single string argument is wrapped into a one-element list by the
caller-side `[headers]`, so the argument is modelled as a list). -/
def sort_data (w : ExcelWrapper) (sheet_name : String) (headers : List String) :
    ExcelWrapper × Option PyErr :=
  match getSheet w sheet_name with
  | none => (w, some (.systemExit "Cannot sort where no headers have been found."))
  | some sd =>
    match resolveSortKeys sd.headers headers with
    | .error e => (w, some e)
    | .ok keys =>
      (modifySheet w sheet_name (fun s => { s with sort_keys := some keys }), none)

/-- `format_cells` (lines 188-194): record a per-header conditional rule. -/
def format_cells (w : ExcelWrapper) (sheet_name header rule bg_color : String) :
    ExcelWrapper :=
  let cs := setdefaultA w.cell_styles sheet_name []
  { w with
    cell_styles :=
      modifyA cs sheet_name (fun hs =>
        modifyA (setdefaultA hs header []) header (fun rules => rules ++ [⟨rule, bg_color⟩])) }

/-- Truthiness of a `rule.get(...)` result in `conditional_format`:
a missing key yields `None` (falsy), an empty string is falsy. -/
def truthyStr : Option String → Bool
  | none => false
  | some s => !s.isEmpty

/-- `s.lstrip('#')`. -/
def lstripHash (s : String) : String :=
  ⟨s.data.dropWhile (· == '#')⟩

/-- One rule dict passed to `conditional_format`: its optional `formula`
and `bg_color` entries. -/
structure RuleDict where
  formula : Option String := none
  bg_color : Option String := none

/-- An argument to `conditional_format`: either a list of dicts, or
anything failing `isinstance(rules, list) and all(isinstance(v, dict))`. -/
inductive CFArg where
  | notListOfDicts
  | rules (rs : List RuleDict)

/-- Append a registered rule to a sheet's `table_styles` entry. -/
def appendTableRule (w : ExcelWrapper) (sheet_name : String) (r : TableRule) :
    ExcelWrapper :=
  { w with table_styles := modifyA w.table_styles sheet_name (fun rules => rules ++ [r]) }

/-- One iteration of the `conditional_format` loop (lines 215-232):
`formula = rule.get('formula')`, `bg_color = rule.get('bg_color')`; a
rule with either entry falsy is skipped with a warning, otherwise a
`Rule` with the formula and the `#`-stripped color is appended. -/
def condStep (sheet_name : String) (acc : ExcelWrapper) (r : RuleDict) : ExcelWrapper :=
  if truthyStr r.formula && truthyStr r.bg_color then
    appendTableRule acc sheet_name ⟨r.formula.getD "", lstripHash (r.bg_color.getD "")⟩
  else acc

/-- `conditional_format` (lines 196-232): reject a malformed batch whole
(warning only, no state change); otherwise `setdefault` the sheet's rule
list and run the loop over the rule dicts. -/
def conditional_format (w : ExcelWrapper) (sheet_name : String) (arg : CFArg) :
    ExcelWrapper :=
  match arg with
  | .notListOfDicts => w
  | .rules rs =>
    let w1 := { w with table_styles := setdefaultA w.table_styles sheet_name [] }
    rs.foldl (condStep sheet_name) w1

/-- `freeze_column_after` (lines 234-235). -/
def freeze_column_after (w : ExcelWrapper) (sheet_name column_name : String) :
    ExcelWrapper :=
  { w with frozen_columns := dictSet w.frozen_columns sheet_name column_name }

/-! ## Export pipeline (`_merge_data`, `_freeze_columns`, `export_excel`) -/

/-- The row-validation loop of `_merge_data` (lines 134-138): every data
row must have exactly `header_count` entries, else
`SystemExit('Invalid Data Found, Column Count Mismatch')`. -/
def mergeRows (header_count : Nat) : List (List PyVal) → Except PyErr (List (List PyVal))
  | [] => .ok []
  | r :: rs =>
    if header_count ≠ r.length then
      .error (.systemExit "Invalid Data Found, Column Count Mismatch")
    else
      (mergeRows header_count rs).map (r :: ·)

/-- `_merge_data` (lines 125-140): header row (of string cells) followed
by all data rows, after checking a non-zero header count
(`SystemExit('No Headers Found: <sheet>')`) and per-row widths. -/
def _merge_data (sheet_name : String) (sd : SheetData) : Except PyErr (List (List PyVal)) :=
  let header_count := sd.headers.length
  if header_count = 0 then
    .error (.systemExit ("No Headers Found: " ++ sheet_name))
  else
    (mergeRows header_count sd.data).map (fun rows => (sd.headers.map PyVal.pystr) :: rows)

/-- `i.value == self.frozen_columns[sheet_name]` for a rendered header
cell: Python `==` between a non-string value and a string is `False`. -/
def cellEqStr (target : String) : PyVal → Bool
  | .pystr s => s == target
  | _ => false

/-- `_freeze_columns` (lines 108-123), applied to the rendered rows of a
sheet: when a freeze target is configured, scan the first rendered row
for an exact value match (`RuntimeError('Invalid Header')` when absent);
the matched cell's 1-based `col_idx` is `i + 1`, and the pane anchor is
the row-1 cell one column further right:
`f'{_col_to_excel(column_number + 1)}1'`. -/
def _freeze_columns (frozen_columns : List (String × String)) (sheet_name : String)
    (rendered_rows : List (List PyVal)) : Except PyErr (Option String) :=
  match frozen_columns.lookup sheet_name with
  | none => .ok none
  | some target =>
    match (rendered_rows.headD []).findIdx? (cellEqStr target) with
    | none => .error (.runtimeError "Invalid Header")
    | some i => .ok (some (col_to_excel (i + 1 + 1) ++ "1"))

/-- The inner loop of the `cell_styles` application (lines 274-295) for
one header's rule list: `headers.index(header)` raises `ValueError` when
the header is gone; otherwise each rule yields a conditional format over
`{col}2:{col}{max_row}` with the formula and the `#`-stripped color. -/
def applyHeaderRules (headers : List String) (max_row : Nat) (header : String) :
    List CellRule → Except PyErr (List (String × String × String))
  | [] => .ok []
  | r :: rest =>
    match headers.findIdx? (· == header) with
    | none => .error (.valueError (header ++ " is not in list"))
    | some i =>
      let header_col := col_to_excel (i + 1)
      (applyHeaderRules headers max_row header rest).map
        ((header_col ++ "2:" ++ header_col ++ toString max_row, r.rule,
          lstripHash r.bg_color) :: ·)

/-- All `cell_styles` entries of a sheet, in insertion order. -/
def applyCellStyles (headers : List String) (max_row : Nat) :
    List (String × List CellRule) → Except PyErr (List (String × String × String))
  | [] => .ok []
  | (header, rules) :: rest =>
    match applyHeaderRules headers max_row header rules with
    | .error e => .error e
    | .ok first =>
      match applyCellStyles headers max_row rest with
      | .error e => .error e
      | .ok more => .ok (first ++ more)

/-- One physical sheet of the exported workbook, as far as the model
observes it: its rendered rows, banded-table range and display name, the
registered conditional formats, and the frozen-pane anchor.  Column
autosizing only sets presentational widths/number formats and is elided. -/
structure ExportedSheet where
  name : String
  displayName : String
  rows : List (List PyVal)
  tableRef : String
  cellFormats : List (String × String × String)
  tableFormats : List (String × TableRule)
  freezeCell : Option String

/-- The rows of a sheet after the export-time in-place sort (lines
249-252): sorted when `sort_keys` is set and truthy (a non-empty list),
unchanged otherwise. -/
def sortedData (sd : SheetData) : List (List PyVal) :=
  match sd.sort_keys with
  | some (k :: ks) => natural_sort_multiple_columns sd.data (k :: ks)
  | _ => sd.data

/-- Export of one non-empty sheet (lines 247-304): sort when `sort_keys`
is truthy, merge and validate, append rows, register the banded table
over the full range under the space-stripped name, apply per-header then
table-wide conditional formats, freeze panes.  The sheet's `max_column`
is the common row width (the header count) and `max_row` the number of
appended rows. -/
def exportSheet (w : ExcelWrapper) (sheet_name : String) (sd : SheetData) :
    Except PyErr ExportedSheet :=
  match _merge_data sheet_name { sd with data := sortedData sd } with
  | .error e => .error e
  | .ok merged =>
    match applyCellStyles sd.headers merged.length
        ((w.cell_styles.lookup sheet_name).getD []) with
    | .error e => .error e
    | .ok cellFmts =>
      match _freeze_columns w.frozen_columns sheet_name merged with
      | .error e => .error e
      | .ok freeze =>
        .ok
          { name := sheet_name
            displayName := ⟨sheet_name.data.filter (· ≠ ' ')⟩
            rows := merged
            tableRef :=
              "A1:" ++ col_to_excel sd.headers.length ++ toString merged.length
            cellFormats := cellFmts
            tableFormats :=
              ((w.table_styles.lookup sheet_name).getD []).map
                (fun r =>
                  ("A2:" ++ col_to_excel sd.headers.length ++ toString merged.length,
                   r))
            freezeCell := freeze }

/-- The per-sheet loop of `export_excel` (lines 242-304): sheets with no
data are skipped (logged only); any exception while building a sheet
aborts the whole export. -/
def exportSheets (w : ExcelWrapper) :
    List (String × SheetData) → Except PyErr (List ExportedSheet)
  | [] => .ok []
  | (sheet_name, sd) :: rest =>
    if sd.data.isEmpty then exportSheets w rest
    else
      match exportSheet w sheet_name sd with
      | .error e => .error e
      | .ok s =>
        match exportSheets w rest with
        | .error e => .error e
        | .ok more => .ok (s :: more)

/-- `export_excel` (lines 237-312): the list of physical sheets of the
produced workbook, in `output_data` order.  (Saving an empty workbook
raises `IndexError`, which the source catches and reports; the produced
sheet list is `[]` in that case.  The in-place re-sorting of
`output_data` during export is not observable through the result and is
not modelled.) -/
def export_excel (w : ExcelWrapper) : Except PyErr (List ExportedSheet) :=
  exportSheets w w.output_data

/-! ## Theorems -/

section ColumnLetters

/-- The loop result only depends on the fuel through `div ≤ fuel`. -/
theorem colLoop_fuel : ∀ (f₁ f₂ d : Nat), d ≤ f₁ → d ≤ f₂ → colLoop f₁ d = colLoop f₂ d := by
  intro f₁
  induction f₁ with
  | zero =>
    intro f₂ d h₁ _
    interval_cases d
    cases f₂ <;> rfl
  | succ f ih =>
    intro f₂ d h₁ h₂
    match d, f₂ with
    | 0, f₂ => cases f₂ <;> rfl
    | d + 1, f₂ + 1 =>
      show colLoop f (d / 26) ++ _ = colLoop f₂ (d / 26) ++ _
      have hd : d / 26 ≤ d := Nat.div_le_self d 26
      rw [ih f₂ (d / 26) (le_trans hd (Nat.le_of_succ_le_succ h₁))
        (le_trans hd (Nat.le_of_succ_le_succ h₂))]

theorem lettersVal_append (cs : List Char) (c : Char) :
    lettersVal (cs ++ [c]) = 26 * lettersVal cs + (c.toNat - 64) := by
  simp [lettersVal, List.foldl_append]

theorem letter_toNat (r : Nat) (h : r < 26) : (Char.ofNat (r + 65)).toNat = r + 65 := by
  interval_cases r <;> decide

/-- Every character the loop emits is one of `A`..`Z`. -/
theorem colLoop_mem_range :
    ∀ (fuel d : Nat), ∀ c ∈ colLoop fuel d, 65 ≤ c.toNat ∧ c.toNat ≤ 90 := by
  intro fuel
  induction fuel with
  | zero =>
    intro d c hc
    cases d <;> simp [colLoop] at hc
  | succ f ih =>
    intro d c hc
    match d with
    | 0 => simp [colLoop] at hc
    | d + 1 =>
      rw [show colLoop (f + 1) (d + 1) = colLoop f (d / 26) ++ [Char.ofNat (d % 26 + 65)]
          from rfl, List.mem_append] at hc
      rcases hc with hc | hc
      · exact ih (d / 26) c hc
      · have hr : d % 26 < 26 := Nat.mod_lt d (by omega)
        have := letter_toNat (d % 26) hr
        simp only [List.mem_singleton] at hc
        subst hc
        omega

/-- Round trip: reading the emitted letters back as bijective base 26
recovers the column index. -/
theorem colLoop_val : ∀ n : Nat, lettersVal (colLoop n n) = n := by
  intro n
  induction n using Nat.strong_induction_on with
  | _ n ih =>
    match n with
    | 0 => rfl
    | m + 1 =>
      have hdiv : m / 26 ≤ m := Nat.div_le_self m 26
      rw [show colLoop (m + 1) (m + 1) = colLoop m (m / 26) ++ [Char.ofNat (m % 26 + 65)]
          from rfl,
        colLoop_fuel m (m / 26) (m / 26) hdiv (le_refl _),
        lettersVal_append, ih (m / 26) (by omega),
        letter_toNat (m % 26) (Nat.mod_lt m (by omega))]
      omega

/-- C2: `_col_to_excel` produces the bijective base-26 letter
representation of every 1-based column index: the result is a non-empty
string of letters `A`..`Z` whose bijective base-26 value is the input,
and the six sample indices map to the expected letter strings. -/
theorem col_to_excel_correct :
    (col_to_excel 1 = "A" ∧ col_to_excel 26 = "Z" ∧ col_to_excel 27 = "AA"
      ∧ col_to_excel 52 = "AZ" ∧ col_to_excel 702 = "ZZ" ∧ col_to_excel 703 = "AAA")
    ∧ ∀ n : Nat, 0 < n →
        colLoop n n ≠ []
        ∧ (∀ c ∈ colLoop n n, 65 ≤ c.toNat ∧ c.toNat ≤ 90)
        ∧ lettersVal (colLoop n n) = n := by
  refine ⟨⟨rfl, rfl, rfl, rfl, rfl, rfl⟩, ?_⟩
  intro n hn
  refine ⟨?_, colLoop_mem_range n n, colLoop_val n⟩
  match n, hn with
  | m + 1, _ =>
    rw [show colLoop (m + 1) (m + 1) = colLoop m (m / 26) ++ [Char.ofNat (m % 26 + 65)]
        from rfl]
    simp

/-- Witness for `col_to_excel_correct` at the concrete index 28. -/
theorem col_to_excel_correct_witness : lettersVal (colLoop 28 28) = 28 :=
  (col_to_excel_correct.2 28 (by decide)).2.2

end ColumnLetters

section NaturalKey

theorem strCons_data (c : Char) (t : String) :
    ((⟨[c]⟩ : String) ++ t).data = c :: t.data := rfl

theorem data_empty : ("" : String).data = [] := rfl

theorem splitRuns_ne_nil (cs : List Char) : splitRuns cs ≠ [] := by
  cases cs with
  | nil => simp [splitRuns]
  | cons c cs =>
    simp only [splitRuns]
    split
    · split <;> simp
    · split <;> simp

/-- Well-formedness of a run list: it alternates non-digit text spans
with non-empty all-digit runs, starting with a text span; in particular
every digit run it contains is maximal (its neighbours in the rebuilt
string are non-digits or the string boundary). -/
inductive AltRuns : List String → Prop where
  | single (t : String) (ht : ∀ c ∈ t.data, c.isDigit = false) : AltRuns [t]
  | cons (t d : String) (rest : List String)
      (ht : ∀ c ∈ t.data, c.isDigit = false)
      (hd : d.data ≠ [] ∧ ∀ c ∈ d.data, c.isDigit = true)
      (hrest : AltRuns rest) : AltRuns (t :: d :: rest)

/-- The split of `re.split('([0-9]+)', s)` is alternating: non-digit
spans at even positions, non-empty maximal digit runs at odd positions. -/
theorem splitRuns_alt : ∀ cs : List Char, AltRuns (splitRuns cs) := by
  intro cs
  induction cs with
  | nil => exact AltRuns.single "" (by simp)
  | cons c cs ih =>
    simp only [splitRuns]
    split
    · rename_i hdig
      split
      · rename_i d rest heq
        rw [heq] at ih
        cases ih with
        | cons t d' rest' ht hd hrest =>
          refine AltRuns.cons "" _ rest (by simp) ⟨by simp [strCons_data], ?_⟩ hrest
          intro ch hch
          rw [strCons_data] at hch
          rcases List.mem_cons.mp hch with h | h
          · subst h; exact hdig
          · exact hd.2 ch h
      · rename_i hne
        refine AltRuns.cons "" (⟨[c]⟩ : String) _ (by simp) ⟨by simp, ?_⟩ ih
        intro ch hch
        have : ch = c := by simpa using hch
        subst this; exact hdig
    · rename_i hdig
      split
      · rename_i t rest heq
        rw [heq] at ih
        cases ih with
        | single t' ht =>
          refine AltRuns.single _ ?_
          intro ch hch
          rw [strCons_data] at hch
          rcases List.mem_cons.mp hch with h | h
          · subst h; simpa using hdig
          · exact ht ch h
        | cons t' d' rest' ht hd hrest =>
          refine AltRuns.cons _ d' rest' ?_ hd hrest
          intro ch hch
          rw [strCons_data] at hch
          rcases List.mem_cons.mp hch with h | h
          · subst h; simpa using hdig
          · exact ht ch h
      · rename_i heq
        exact absurd heq (splitRuns_ne_nil cs)

/-- Concatenation of the character data of a run list. -/
def joinRuns : List String → List Char
  | [] => []
  | t :: rest => t.data ++ joinRuns rest

/-- The runs of the split reassemble the original string. -/
theorem splitRuns_join : ∀ cs : List Char, joinRuns (splitRuns cs) = cs := by
  intro cs
  induction cs with
  | nil => simp [splitRuns, joinRuns]
  | cons c cs ih =>
    simp only [splitRuns]
    split
    · split
      · rename_i d rest heq
        rw [heq] at ih
        simp only [joinRuns, strCons_data, data_empty, List.nil_append,
          List.cons_append] at ih ⊢
        simpa using ih
      · simp [joinRuns, ih]
    · split
      · rename_i t rest heq
        rw [heq] at ih
        simp only [joinRuns] at ih ⊢
        rw [strCons_data]
        simpa using ih
      · rename_i heq
        exact absurd heq (splitRuns_ne_nil cs)

/-- C1: the natural-sort key of a string is the ordered sequence of its
alternating segments — the split's runs reassemble the string
(`splitRuns_join`), alternate non-digit spans with maximal digit runs
(`splitRuns_alt`), and are mapped to the digit runs' integer values and
the other spans' lowercase text; consequently, sorting the rows
`"item2"`, `"item10"`, `"item1"` ascending by this key yields
`"item1"`, `"item2"`, `"item10"`. -/
theorem natural_sort_key_correct :
    (∀ s : String,
        joinRuns (splitRuns s.data) = s.data
        ∧ AltRuns (splitRuns s.data)
        ∧ natural_sort_key s =
            (splitRuns s.data).map
              (fun text =>
                if pyIsDigit text then .num (pyToNat text) else .txt (pyLower text)))
    ∧ natural_sort_multiple_columns
        [[PyVal.pystr "item2"], [PyVal.pystr "item10"], [PyVal.pystr "item1"]] [0]
      = [[PyVal.pystr "item1"], [PyVal.pystr "item2"], [PyVal.pystr "item10"]] :=
  ⟨fun s => ⟨splitRuns_join s.data, splitRuns_alt s.data, rfl⟩, rfl⟩

end NaturalKey

section Stability

theorem natCompare_self (n : Nat) : compare n n = Ordering.eq := by
  have := @lt_irrefl Nat _ n
  simp [compare, compareOfLessAndEq, this]

theorem cmpList_self (cmp : α → α → Ordering) (h : ∀ a, cmp a a = .eq) :
    ∀ l, cmpList cmp l l = .eq := by
  intro l
  induction l with
  | nil => rfl
  | cons a l ih => simp [cmpList, h, ih]

theorem segCmp_self (a : SortSeg) : segCmp a a = .eq := by
  cases a with
  | num n => simpa [segCmp] using natCompare_self n
  | txt s => exact cmpList_self charOrd (fun c => natCompare_self c.toNat) s.data

theorem rowKeyCmp_self (k : List (List SortSeg)) : rowKeyCmp k k = .eq :=
  cmpList_self keyCmp (fun l => cmpList_self segCmp segCmp_self l) k

/-- Inserting `a` into `l` keeps the filtered-by-key sublist intact,
prepending `a` exactly when `a` has the filtered key, provided the order
holds between any two key-equal elements. -/
theorem filter_orderedInsert {κ : Type _} [DecidableEq κ]
    (r : α → α → Prop) [DecidableRel r] (key : α → κ)
    (hr : ∀ a b, key a = key b → r a b) (a : α) (k : κ) :
    ∀ l : List α,
      (l.orderedInsert r a).filter (fun x => decide (key x = k))
        = if key a = k then a :: l.filter (fun x => decide (key x = k))
          else l.filter (fun x => decide (key x = k)) := by
  intro l
  induction l with
  | nil =>
    by_cases hak : key a = k <;> simp [List.orderedInsert, List.filter, hak]
  | cons b l ih =>
    by_cases hab : r a b
    · simp only [List.orderedInsert, if_pos hab]
      by_cases hak : key a = k <;> by_cases hbk : key b = k <;>
        simp [List.filter_cons, hak, hbk]
    · have hne : key a ≠ key b := fun h => hab (hr a b h)
      simp only [List.orderedInsert, if_neg hab]
      by_cases hak : key a = k
      · have hbk : ¬ key b = k := fun h => hne (by rw [hak, h])
        simp [List.filter_cons, hbk, ih, hak]
      · by_cases hbk : key b = k <;> simp [List.filter_cons, hbk, ih, hak]

/-- Stability of the insertion sort: the sublist of elements with any
fixed key value is unchanged by sorting. -/
theorem filter_insertionSort {κ : Type _} [DecidableEq κ]
    (r : α → α → Prop) [DecidableRel r] (key : α → κ)
    (hr : ∀ a b, key a = key b → r a b) (k : κ) :
    ∀ l : List α,
      (l.insertionSort r).filter (fun x => decide (key x = k))
        = l.filter (fun x => decide (key x = k)) := by
  intro l
  induction l with
  | nil => rfl
  | cons b l ih =>
    show ((l.insertionSort r).orderedInsert r b).filter _ = _
    rw [filter_orderedInsert r key hr b k]
    by_cases hbk : key b = k <;> simp [List.filter_cons, hbk, ih]

/-- C9: the multi-key natural sort is stable — rows whose composite
natural-sort keys over all sort columns are fully equal keep their
original relative order (the filtered sublist at any fixed composite key
is preserved).  The hypothesis restricts to in-range sort keys, the
domain on which the source does not raise `IndexError`. -/
theorem natural_sort_stable (data : List (List PyVal)) (sort_keys : List Nat)
    (_hin : ∀ row ∈ data, ∀ k ∈ sort_keys, k < row.length)
    (key : List (List SortSeg)) :
    (natural_sort_multiple_columns data sort_keys).filter
        (fun row => decide (rowSortKey sort_keys row = key))
      = data.filter (fun row => decide (rowSortKey sort_keys row = key)) := by
  have hr : ∀ x y : List PyVal,
      rowSortKey sort_keys x = rowSortKey sort_keys y → rowLe sort_keys x y := by
    intro x y h
    unfold rowLe
    rw [h, rowKeyCmp_self]
    simp
  exact filter_insertionSort (rowLe sort_keys) (rowSortKey sort_keys) hr key data

/-- Witness for `natural_sort_stable`: the rows `"a01"` and `"a1"` have
the same natural-sort key, and their relative order survives sorting. -/
theorem natural_sort_stable_witness :
    (natural_sort_multiple_columns
        [[PyVal.pystr "a01"], [PyVal.pystr "x"], [PyVal.pystr "a1"]] [0]).filter
        (fun row => decide (rowSortKey [0] row = rowSortKey [0] [PyVal.pystr "a1"]))
      = [[PyVal.pystr "a01"], [PyVal.pystr "x"], [PyVal.pystr "a1"]].filter
        (fun row => decide (rowSortKey [0] row = rowSortKey [0] [PyVal.pystr "a1"])) :=
  natural_sort_stable _ _ (by decide) _

end Stability

section StoreLemmas

variable {β : Type _}

theorem lookup_modifyA (l : List (String × β)) (k : String) (f : β → β) :
    (modifyA l k f).lookup k = (l.lookup k).map f := by
  induction l with
  | nil => rfl
  | cons p l ih =>
    obtain ⟨a, b⟩ := p
    by_cases h : a = k
    · subst h
      simp [modifyA, List.lookup_cons]
    · simp only [modifyA, List.map_cons, if_neg h, List.lookup_cons,
        beq_false_of_ne (fun hh => h hh.symm)]
      exact ih

theorem lookup_modifyA_ne (l : List (String × β)) (k k' : String) (f : β → β)
    (h : k' ≠ k) : (modifyA l k f).lookup k' = l.lookup k' := by
  induction l with
  | nil => rfl
  | cons p l ih =>
    obtain ⟨a, b⟩ := p
    by_cases hp : a = k
    · subst hp
      simp only [modifyA, List.map_cons, if_true, eq_self_iff_true,
        List.lookup_cons, beq_false_of_ne h]
      exact ih
    · simp only [modifyA, List.map_cons, if_neg hp, List.lookup_cons]
      cases hk : (k' == a) with
      | true => rfl
      | false => exact ih

theorem lookup_append_none (l₁ l₂ : List (String × β)) (k : String)
    (h : l₁.lookup k = none) : (l₁ ++ l₂).lookup k = l₂.lookup k := by
  induction l₁ with
  | nil => rfl
  | cons p l ih =>
    obtain ⟨a, b⟩ := p
    simp only [List.lookup_cons, List.cons_append] at h ⊢
    cases hk : (k == a) with
    | true => rw [hk] at h; cases h
    | false => rw [hk] at h; exact ih h

theorem lookup_setdefaultA (l : List (String × β)) (k : String) (v : β) :
    (setdefaultA l k v).lookup k = some ((l.lookup k).getD v) := by
  unfold setdefaultA
  cases h : l.lookup k with
  | some b => simp [h]
  | none =>
    simp only [h, Option.isSome_none, Bool.false_eq_true, if_false, Option.getD_none]
    rw [lookup_append_none l _ k h]
    simp [List.lookup_cons]

theorem lookup_append_single_ne (l : List (String × β)) (k k' : String) (v : β)
    (h : k' ≠ k) : (l ++ [(k, v)]).lookup k' = l.lookup k' := by
  induction l with
  | nil => simp [List.lookup_cons, beq_false_of_ne h]
  | cons p l ih =>
    obtain ⟨a, b⟩ := p
    simp only [List.cons_append, List.lookup_cons]
    cases hk : (k' == a) with
    | true => rfl
    | false => exact ih

theorem lookup_setdefaultA_ne (l : List (String × β)) (k k' : String) (v : β)
    (h : k' ≠ k) : (setdefaultA l k v).lookup k' = l.lookup k' := by
  unfold setdefaultA
  cases hs : (l.lookup k).isSome with
  | true => simp
  | false =>
    simp only [Bool.false_eq_true, if_false]
    exact lookup_append_single_ne l k k' v h

theorem getSheet_create (w : ExcelWrapper) (n : String) :
    getSheet (_create_sheet w n) n = some ((getSheet w n).getD ⟨[], [], none⟩) := by
  unfold _create_sheet
  cases h : getSheet w n with
  | some sd => simp [h]
  | none =>
    simp only [h, Option.isSome_none, Bool.false_eq_true, if_false, Option.getD_none]
    show (w.output_data ++ [(n, _)]).lookup n = _
    rw [lookup_append_none _ _ _ h]
    simp [List.lookup_cons]

theorem getSheet_modifySheet (w : ExcelWrapper) (n : String) (f : SheetData → SheetData) :
    getSheet (modifySheet w n f) n = (getSheet w n).map f :=
  lookup_modifyA w.output_data n f

end StoreLemmas

section StoreClaims

theorem not_nodup_dedup_length (hs : List String) (h : ¬ hs.Nodup) :
    hs.dedup.length ≠ hs.length := fun hlen =>
  h (List.dedup_eq_self.mp (List.Sublist.eq_of_length (List.dedup_sublist hs) hlen))

/-- C6: `add_headers` with a repeated header (case-sensitive equality)
fails with the duplicate-header `ValueError`, and the stored header list
of the sheet is exactly what `_create_sheet` alone leaves there: the old
headers if the sheet existed, the unset `[]` otherwise. -/
theorem add_headers_duplicate (w : ExcelWrapper) (sheet_name : String)
    (hs : List String) (hdup : ¬ hs.Nodup) :
    add_headers w sheet_name hs
        = (_create_sheet w sheet_name, some (.valueError "Duplicate Header Found."))
    ∧ (getSheet (_create_sheet w sheet_name) sheet_name).map SheetData.headers
        = some (((getSheet w sheet_name).map SheetData.headers).getD []) := by
  constructor
  · simp only [add_headers]
    rw [if_pos (not_nodup_dedup_length hs hdup)]
  · rw [getSheet_create]
    cases h : getSheet w sheet_name <;> simp [h]

/-- Witness for `add_headers_duplicate` on `['A', 'B', 'A']`. -/
theorem add_headers_duplicate_witness :
    add_headers {} "S" ["A", "B", "A"]
      = (_create_sheet {} "S", some (.valueError "Duplicate Header Found.")) :=
  (add_headers_duplicate {} "S" ["A", "B", "A"] (by decide)).1

theorem mergeRows_all_ok (hc : Nat) (rows : List (List PyVal))
    (h : ∀ r ∈ rows, r.length = hc) : mergeRows hc rows = .ok rows := by
  induction rows with
  | nil => rfl
  | cons r rs ih =>
    have hr : r.length = hc := h r (List.mem_cons_self r rs)
    rw [mergeRows, if_neg (by simp [hr]),
      ih (fun x hx => h x (List.mem_cons_of_mem _ hx))]
    rfl

theorem mergeRows_mismatch (hc : Nat) (rows : List (List PyVal))
    (h : ∃ r ∈ rows, r.length ≠ hc) :
    mergeRows hc rows
      = .error (.systemExit "Invalid Data Found, Column Count Mismatch") := by
  induction rows with
  | nil => rcases h with ⟨r, hr, _⟩; cases hr
  | cons r rs ih =>
    by_cases hrr : hc = r.length
    · have hrest : ∃ x ∈ rs, x.length ≠ hc := by
        rcases h with ⟨x, hx, hne⟩
        rcases List.mem_cons.mp hx with rfl | hx'
        · exact absurd hrr.symm hne
        · exact ⟨x, hx', hne⟩
      rw [mergeRows, if_neg (not_not.mpr hrr), ih hrest]
      rfl
    · rw [mergeRows, if_pos hrr]

/-- C5: `_merge_data` yields the header row followed by all data rows in
stored order; it fails with the no-headers `SystemExit` when the header
count is zero, and with the column-count-mismatch `SystemExit` when some
stored row's width differs from the header count. -/
theorem merge_data_spec (sheet_name : String) (sd : SheetData) :
    (sd.headers = [] →
        _merge_data sheet_name sd
          = .error (.systemExit ("No Headers Found: " ++ sheet_name)))
    ∧ ((∀ r ∈ sd.data, r.length = sd.headers.length) → sd.headers ≠ [] →
        _merge_data sheet_name sd = .ok ((sd.headers.map PyVal.pystr) :: sd.data))
    ∧ ((∃ r ∈ sd.data, r.length ≠ sd.headers.length) → sd.headers ≠ [] →
        _merge_data sheet_name sd
          = .error (.systemExit "Invalid Data Found, Column Count Mismatch")) := by
  refine ⟨?_, ?_, ?_⟩
  · intro h
    have hz : sd.headers.length = 0 := by simp [h]
    simp [_merge_data, hz]
  · intro hall hne
    have hz : ¬ sd.headers.length = 0 := by simpa [List.length_eq_zero] using hne
    rw [_merge_data, if_neg hz, mergeRows_all_ok _ _ hall]
    rfl
  · intro hex hne
    have hz : ¬ sd.headers.length = 0 := by simpa [List.length_eq_zero] using hne
    rw [_merge_data, if_neg hz, mergeRows_mismatch _ _ hex]
    rfl

/-- Witness for `merge_data_spec`: a one-header sheet with one valid row
merges to header row plus data row. -/
theorem merge_data_spec_witness :
    _merge_data "S" ⟨["A"], [[PyVal.pystr "x"]], none⟩
      = .ok [[PyVal.pystr "A"], [PyVal.pystr "x"]] :=
  (merge_data_spec "S" ⟨["A"], [[PyVal.pystr "x"]], none⟩).2.1 (by decide) (by decide)

end StoreClaims

section AddDataClaims

theorem addBatch_seq (hc : Nat) :
    ∀ (rows : List (List PyVal)) (acc : List (List PyVal)),
      (∃ r ∈ rows, r.length ≠ hc) →
      addBatch hc acc (rows.map PyVal.pyseq)
        = (acc ++ (rows.takeWhile (fun r => decide (r.length = hc))).map
              (List.map normVal),
           some (.valueError "Invalid Data Found, Column Count Mismatch")) := by
  intro rows
  induction rows with
  | nil =>
    intro acc h
    rcases h with ⟨r, hr, _⟩
    cases hr
  | cons r rs ih =>
    intro acc h
    by_cases hr : r.length = hc
    · have hrest : ∃ x ∈ rs, x.length ≠ hc := by
        rcases h with ⟨x, hx, hne⟩
        rcases List.mem_cons.mp hx with rfl | hx'
        · exact absurd hr hne
        · exact ⟨x, hx', hne⟩
      show addBatch hc acc (PyVal.pyseq r :: rs.map PyVal.pyseq) = _
      rw [addBatch]
      simp only [pyLen]
      rw [if_neg (not_not.mpr hr)]
      rw [ih _ hrest]
      simp [List.takeWhile_cons, hr, pyIter]
    · show addBatch hc acc (PyVal.pyseq r :: rs.map PyVal.pyseq) = _
      rw [addBatch]
      simp only [pyLen]
      rw [if_pos hr]
      simp [List.takeWhile_cons, hr]

/-- C3: a batch-form `add_data` call (first element of the input is a
sequence) containing a row of the wrong width fails with the
column-count-mismatch `ValueError`, and exactly the batch rows strictly
before the first offending row remain appended (normalized) to the
sheet's data — the call is not atomic. -/
theorem add_data_batch_mismatch (w : ExcelWrapper) (sheet_name : String)
    (rows : List (List PyVal)) (sd : SheetData)
    (hsd : getSheet (_create_sheet w sheet_name) sheet_name = some sd)
    (hbad : ∃ r ∈ rows, r.length ≠ sd.headers.length) :
    (add_data w sheet_name (.pylist (rows.map PyVal.pyseq))).2
        = some (.valueError "Invalid Data Found, Column Count Mismatch")
    ∧ getSheet (add_data w sheet_name (.pylist (rows.map PyVal.pyseq))).1 sheet_name
        = some { sd with data :=
            sd.data ++
              ((rows.takeWhile (fun r => decide (r.length = sd.headers.length))).map
                (List.map normVal)) } := by
  have hne : rows ≠ [] := by
    rintro rfl
    rcases hbad with ⟨x, hx, _⟩
    exact List.not_mem_nil x hx
  cases rows with
  | nil => exact absurd rfl hne
  | cons r rs =>
    simp only [add_data, List.map_cons, hsd, Option.getD_some, isSeqInst, if_true]
    rw [show PyVal.pyseq r :: rs.map PyVal.pyseq = (r :: rs).map PyVal.pyseq from rfl,
      addBatch_seq sd.headers.length (r :: rs) sd.data hbad]
    refine ⟨rfl, ?_⟩
    rw [getSheet_modifySheet, hsd]
    rfl

/-- Witness for `add_data_batch_mismatch`: on a sheet with headers
`['A', 'B']`, the batch `[['a', 'b'], ['c']]` fails, and the first
row stays appended. -/
theorem add_data_batch_mismatch_witness :
    (add_data (add_headers {} "S" ["A", "B"]).1 "S"
        (.pylist ([[PyVal.pystr "a", PyVal.pystr "b"],
          [PyVal.pystr "c"]].map PyVal.pyseq))).2
      = some (.valueError "Invalid Data Found, Column Count Mismatch") :=
  (add_data_batch_mismatch (add_headers {} "S" ["A", "B"]).1 "S"
    [[PyVal.pystr "a", PyVal.pystr "b"], [PyVal.pystr "c"]]
    ⟨["A", "B"], [], none⟩ (by rfl) (by decide)).1

/-- C10: `add_data` indexes `data[0]` without guarding — an empty list or
tuple fails with `IndexError`, a set (accepted by the `isinstance` check)
fails with `TypeError` when indexed — and in all three cases the sheet's
stored data is exactly what `_create_sheet` alone leaves (no row is
appended), and neither error is the documented column-count-mismatch
`ValueError`. -/
theorem add_data_unguarded_first_index (w : ExcelWrapper) (sheet_name : String)
    (items : List PyVal) :
    add_data w sheet_name (.pyset items)
        = (_create_sheet w sheet_name,
           some (.typeError "set object is not subscriptable"))
    ∧ add_data w sheet_name (.pylist [])
        = (_create_sheet w sheet_name, some (.indexError "list index out of range"))
    ∧ add_data w sheet_name (.pytuple [])
        = (_create_sheet w sheet_name, some (.indexError "list index out of range"))
    ∧ (getSheet (_create_sheet w sheet_name) sheet_name).map SheetData.data
        = some (((getSheet w sheet_name).map SheetData.data).getD [])
    ∧ (PyErr.typeError "set object is not subscriptable"
        ≠ PyErr.valueError "Invalid Data Found, Column Count Mismatch")
    ∧ (PyErr.indexError "list index out of range"
        ≠ PyErr.valueError "Invalid Data Found, Column Count Mismatch") := by
  refine ⟨rfl, rfl, rfl, ?_, by decide, by decide⟩
  rw [getSheet_create]
  cases h : getSheet w sheet_name <;> simp [h]

end AddDataClaims

section FreezeClaims

/-- C4 (amended): for a sheet with a configured freeze target, export
scans the rendered header row for an exact value match, fails with
`RuntimeError('Invalid Header')` when no header cell matches, and
otherwise anchors the frozen panes at the *header-row* cell (row 1) one
column right of the matched header cell — the pane boundary sits
immediately after the named column, and no rows are frozen. -/
theorem freeze_columns_after_column (frozen : List (String × String))
    (sheet_name target : String) (rendered_rows : List (List PyVal))
    (hf : frozen.lookup sheet_name = some target) :
    ((rendered_rows.headD []).findIdx? (cellEqStr target) = none →
        _freeze_columns frozen sheet_name rendered_rows
          = .error (.runtimeError "Invalid Header"))
    ∧ ∀ i, (rendered_rows.headD []).findIdx? (cellEqStr target) = some i →
        _freeze_columns frozen sheet_name rendered_rows
          = .ok (some (col_to_excel (i + 2) ++ "1")) := by
  constructor
  · intro h
    simp only [_freeze_columns, hf]
    rw [h]
  · intro i h
    simp only [_freeze_columns, hf]
    rw [h]

/-- Witness for `freeze_columns_after_column`: target `'B'` matched at
0-based index 1 anchors the panes at `C1`. -/
theorem freeze_columns_after_column_witness :
    _freeze_columns [("S", "B")] "S" [[PyVal.pystr "A", PyVal.pystr "B"]]
      = .ok (some (col_to_excel (1 + 2) ++ "1")) :=
  (freeze_columns_after_column [("S", "B")] "S" "B"
    [[PyVal.pystr "A", PyVal.pystr "B"]] rfl).2 1 rfl

/-- Counterexample to C4 as stated: with headers `['A', 'B']` and freeze
target `'B'` (matched header cell at row 1, column 2), the cell directly
below and one column right of the matched header cell is `C2`, but the
code freezes at `C1` — the anchor stays in row 1, so the header row
itself is not frozen. -/
theorem freeze_columns_not_below_counterexample :
    _freeze_columns [("S", "B")] "S" [[PyVal.pystr "A", PyVal.pystr "B"]]
      = .ok (some "C1")
    ∧ ("C1" : String) ≠ "C2" := ⟨rfl, by decide⟩

end FreezeClaims

section ConditionalFormatClaims

/-- The rule registered for one dict of a `conditional_format` batch:
`none` exactly when the dict is skipped for a falsy `formula` or
`bg_color`. -/
def mkTableRule (r : RuleDict) : Option TableRule :=
  if truthyStr r.formula && truthyStr r.bg_color then
    some ⟨r.formula.getD "", lstripHash (r.bg_color.getD "")⟩
  else none

theorem condFold_spec (sheet_name : String) :
    ∀ (rs : List RuleDict) (w1 : ExcelWrapper) (cur : List TableRule),
      w1.table_styles.lookup sheet_name = some cur →
      ((rs.foldl (condStep sheet_name) w1).table_styles.lookup sheet_name
          = some (cur ++ rs.filterMap mkTableRule))
      ∧ (rs.foldl (condStep sheet_name) w1).output_data = w1.output_data
      ∧ ∀ k, k ≠ sheet_name →
          (rs.foldl (condStep sheet_name) w1).table_styles.lookup k
            = w1.table_styles.lookup k := by
  intro rs
  induction rs with
  | nil =>
    intro w1 cur hcur
    refine ⟨?_, rfl, fun k _ => rfl⟩
    simpa using hcur
  | cons r rest ih =>
    intro w1 cur hcur
    by_cases ht : (truthyStr r.formula && truthyStr r.bg_color) = true
    · have hstep : condStep sheet_name w1 r
          = appendTableRule w1 sheet_name
              ⟨r.formula.getD "", lstripHash (r.bg_color.getD "")⟩ := by
        simp [condStep, ht]
      have hlook : (appendTableRule w1 sheet_name
            ⟨r.formula.getD "", lstripHash (r.bg_color.getD "")⟩).table_styles.lookup
              sheet_name
          = some (cur ++ [⟨r.formula.getD "", lstripHash (r.bg_color.getD "")⟩]) := by
        have hm := lookup_modifyA w1.table_styles sheet_name
          (fun rules => rules ++
            [(⟨r.formula.getD "", lstripHash (r.bg_color.getD "")⟩ : TableRule)])
        rw [hcur] at hm
        exact hm
      obtain ⟨h1, h2, h3⟩ := ih _ _ hlook
      have hmk : mkTableRule r
          = some ⟨r.formula.getD "", lstripHash (r.bg_color.getD "")⟩ := by
        simp [mkTableRule, ht]
      refine ⟨?_, ?_, ?_⟩
      · rw [List.foldl_cons, hstep, h1, List.filterMap_cons, hmk]
        simp
      · rw [List.foldl_cons, hstep, h2]
        rfl
      · intro k hk
        rw [List.foldl_cons, hstep, h3 k hk]
        exact lookup_modifyA_ne w1.table_styles sheet_name k
          (fun rules => rules ++
            [(⟨r.formula.getD "", lstripHash (r.bg_color.getD "")⟩ : TableRule)]) hk
    · have hstep : condStep sheet_name w1 r = w1 := by
        simp [condStep, ht]
      have hmk : mkTableRule r = none := by
        simp [mkTableRule, ht]
      obtain ⟨h1, h2, h3⟩ := ih w1 cur hcur
      exact ⟨by rw [List.foldl_cons, hstep, h1, List.filterMap_cons, hmk],
        by rw [List.foldl_cons, hstep, h2],
        fun k hk => by rw [List.foldl_cons, hstep, h3 k hk]⟩

/-- C8: a malformed batch (not a list of dicts) leaves the wrapper
untouched; a well-typed batch leaves `output_data` untouched, records
under the sheet exactly the rules of the dicts whose `formula` and
`bg_color` are both non-empty (in order, colors `#`-stripped), skipping
the rest, and leaves every other sheet's recorded rules unchanged. -/
theorem conditional_format_spec (w : ExcelWrapper) (sheet_name : String)
    (rs : List RuleDict) (other : String) (hother : other ≠ sheet_name) :
    conditional_format w sheet_name .notListOfDicts = w
    ∧ (conditional_format w sheet_name (.rules rs)).output_data = w.output_data
    ∧ (conditional_format w sheet_name (.rules rs)).table_styles.lookup sheet_name
        = some (((w.table_styles.lookup sheet_name).getD [])
            ++ rs.filterMap mkTableRule)
    ∧ (conditional_format w sheet_name (.rules rs)).table_styles.lookup other
        = w.table_styles.lookup other := by
  have hsd : ({ w with table_styles := setdefaultA w.table_styles sheet_name [] }
        : ExcelWrapper).table_styles.lookup sheet_name
      = some ((w.table_styles.lookup sheet_name).getD []) :=
    lookup_setdefaultA w.table_styles sheet_name []
  obtain ⟨h1, h2, h3⟩ := condFold_spec sheet_name rs _ _ hsd
  refine ⟨rfl, ?_, ?_, ?_⟩
  · exact h2
  · exact h1
  · rw [show conditional_format w sheet_name (.rules rs)
        = rs.foldl (condStep sheet_name)
            { w with table_styles := setdefaultA w.table_styles sheet_name [] }
        from rfl, h3 other hother]
    exact lookup_setdefaultA_ne w.table_styles sheet_name other [] hother

/-- Witness for `conditional_format_spec`: the rule missing `bg_color` is
skipped while its well-formed sibling is registered. -/
theorem conditional_format_spec_witness :
    (conditional_format {} "S"
        (.rules [{ formula := some "$A2=1", bg_color := some "#FF0000" },
                 { formula := some "$A2=2" }])).table_styles.lookup "S"
      = some [⟨"$A2=1", "FF0000"⟩] :=
  ((conditional_format_spec {} "S"
      [{ formula := some "$A2=1", bg_color := some "#FF0000" },
       { formula := some "$A2=2" }] "T" (by decide)).2.2.1).trans (by rfl)

end ConditionalFormatClaims

section ExportClaims

theorem exportSheet_name (w : ExcelWrapper) (n : String) (sd : SheetData)
    (s : ExportedSheet) (h : exportSheet w n sd = .ok s) : s.name = n := by
  unfold exportSheet at h
  split at h
  · cases h
  · split at h
    · cases h
    · split at h
      · cases h
      · cases h
        rfl

theorem exportSheets_names (w : ExcelWrapper) :
    ∀ (l : List (String × SheetData)) (sheets : List ExportedSheet),
      exportSheets w l = .ok sheets →
      sheets.map ExportedSheet.name
        = (l.filter (fun p => !p.2.data.isEmpty)).map Prod.fst := by
  intro l
  induction l with
  | nil =>
    intro sheets h
    cases h
    rfl
  | cons p rest ih =>
    intro sheets h
    obtain ⟨n, sd⟩ := p
    rw [exportSheets] at h
    by_cases hemp : sd.data.isEmpty
    · rw [if_pos hemp] at h
      rw [List.filter_cons]
      simp only [hemp, Bool.not_true, Bool.false_eq_true, if_false]
      exact ih sheets h
    · have hcond : (!sd.data.isEmpty) = true := by
        cases hb : sd.data.isEmpty with
        | true => exact absurd hb hemp
        | false => rfl
      rw [if_neg hemp] at h
      split at h
      · cases h
      · rename_i s hs
        split at h
        · cases h
        · rename_i more hmore
          cases h
          rw [List.filter_cons, if_pos hcond]
          simp only [List.map_cons]
          rw [exportSheet_name w n sd s hs, ih more hmore]

/-- C7: when export succeeds, the produced document's sheets are exactly
the stored sheets with at least one data row, in order; consequently (for
a store with unique sheet names, which every API-built store has) a sheet
whose stored data-row list is empty at export time is absent from the
produced document's sheet list. -/
theorem export_excel_skips_empty (w : ExcelWrapper) (sheets : List ExportedSheet)
    (hok : export_excel w = .ok sheets)
    (hnodup : (w.output_data.map Prod.fst).Nodup) :
    sheets.map ExportedSheet.name
        = (w.output_data.filter (fun p => !p.2.data.isEmpty)).map Prod.fst
    ∧ ∀ p ∈ w.output_data, p.2.data = [] → p.1 ∉ sheets.map ExportedSheet.name := by
  have h1 := exportSheets_names w w.output_data sheets hok
  refine ⟨h1, ?_⟩
  intro p hp hdata hmem
  rw [h1] at hmem
  rcases List.mem_map.mp hmem with ⟨q, hqf, hq1⟩
  have hq_mem : q ∈ w.output_data := List.mem_of_mem_filter hqf
  have hq_ne : q.2.data ≠ [] := by
    intro hq
    have := List.of_mem_filter hqf
    rw [hq] at this
    cases this
  have hpq : p = q := List.inj_on_of_nodup_map hnodup hp hq_mem (hq1.symm)
  rw [hpq] at hdata
  exact hq_ne hdata

/-- A store with one sheet holding a data row and one sheet with headers
only. -/
def exportDemo : ExcelWrapper :=
  (add_headers
    ((add_data ((add_headers {} "A" ["H"]).1) "A" (.pylist [PyVal.pystr "x"])).1)
    "B" ["H"]).1

/-- The single physical sheet `exportDemo` exports to. -/
def exportDemoSheet : ExportedSheet :=
  { name := "A", displayName := "A", rows := [[PyVal.pystr "H"], [PyVal.pystr "x"]],
    tableRef := "A1:A2", cellFormats := [], tableFormats := [], freezeCell := none }

/-- Witness for `export_excel_skips_empty`: the row-less sheet `B` is
absent from the exported sheet list. -/
theorem export_excel_skips_empty_witness :
    "B" ∉ [exportDemoSheet].map ExportedSheet.name := by
  refine (export_excel_skips_empty exportDemo [exportDemoSheet] rfl (by decide)).2
    ("B", ⟨["H"], [], none⟩) ?_ rfl
  have hout : exportDemo.output_data
      = [("A", (⟨["H"], [[PyVal.pystr "x"]], none⟩ : SheetData)),
         ("B", (⟨["H"], [], none⟩ : SheetData))] := rfl
  rw [hout]
  exact List.mem_cons_of_mem _ (List.mem_cons_self _ _)

end ExportClaims

section ExtraWitnesses

/-- Witness for `natural_sort_key_correct` at the string `"item2"`. -/
theorem natural_sort_key_correct_witness :
    natural_sort_key "item2"
      = (splitRuns "item2".data).map
          (fun text =>
            if pyIsDigit text then .num (pyToNat text) else .txt (pyLower text)) :=
  (natural_sort_key_correct.1 "item2").2.2

/-- Witness for `add_data_unguarded_first_index` on a concrete set
argument. -/
theorem add_data_unguarded_first_index_witness :
    add_data {} "S" (.pyset [PyVal.pystr "a"])
      = (_create_sheet {} "S", some (.typeError "set object is not subscriptable")) :=
  (add_data_unguarded_first_index {} "S" [PyVal.pystr "a"]).1

end ExtraWitnesses
